import Mathlib

/-!
Shallow embedding of the core of `file_py.py` (repository `elkronos/file_py`):
the symbolic permission compiler `symbolic_to_octal`, the size parser
`human_to_bytes`, the filtered directory listing `dir_ls` and the standalone
`path_filter`, together with theorems settling the specification claims.

Python's arbitrary-precision integers are modelled as `Nat` (all values in
play are non-negative); `perm &= ~bits` is modelled by removing the bits of
the mask, which is exactly what it does on non-negative ints. Python's
`re.match`, `Path.match`, `re.search`, `str.upper` and the OS directory
enumeration are external library collaborators: the two pattern matchers are
taken as oracle parameters, `str.upper` is modelled on ASCII, and the
enumeration is an input list in the order the OS yields it.
-/

namespace FilePy

/-- Characters accepted by the `[ugoa]` class of the clause regex. -/
def isWho (c : Char) : Bool := c = 'u' || c = 'g' || c = 'o' || c = 'a'

/-- Characters accepted by the `[+=-]` class of the clause regex. -/
def isAction (c : Char) : Bool := c = '+' || c = '=' || c = '-'

/-- Characters accepted by the `[rwx]` class of the clause regex. -/
def isPerm (c : Char) : Bool := c = 'r' || c = 'w' || c = 'x'

/-- Python `str.strip()`: drop whitespace from both ends. -/
def pyStrip (cs : List Char) : List Char :=
  ((cs.dropWhile Char.isWhitespace).reverse.dropWhile Char.isWhitespace).reverse

/-- Python `str.split(',')`: always at least one group, empty groups kept. -/
def splitComma : List Char → List (List Char)
  | [] => [[]]
  | c :: rest =>
    if c = ',' then [] :: splitComma rest
    else
      match splitComma rest with
      | [] => [[c]]
      | g :: gs => (c :: g) :: gs

/-- The anchored-at-start match `re.match(r'([ugoa]*)([+=-])([rwx]*)', op.strip())`.
Since the three character classes are pairwise disjoint, the greedy `[ugoa]*`
takes the maximal run, one `[+=-]` character must follow, and `[rwx]*` takes
the maximal run after it; any remaining text is ignored by `re.match`.
Returns the three groups, or `none` when the regex does not match. -/
def parseClause (op : List Char) : Option (List Char × Char × List Char) :=
  let s := pyStrip op
  match s.dropWhile isWho with
  | [] => none
  | a :: rest =>
    if isAction a then some (s.takeWhile isWho, a, rest.takeWhile isPerm) else none

/-- The `perm_bits` table: `stat.S_IRUSR` … `stat.S_IXOTH`, with the `'a'` row
being the or of the three category rows. -/
def permBits (w p : Char) : Nat :=
  match w, p with
  | 'u', 'r' => 0o400
  | 'u', 'w' => 0o200
  | 'u', 'x' => 0o100
  | 'g', 'r' => 0o040
  | 'g', 'w' => 0o020
  | 'g', 'x' => 0o010
  | 'o', 'r' => 0o004
  | 'o', 'w' => 0o002
  | 'o', 'x' => 0o001
  | 'a', 'r' => 0o444
  | 'a', 'w' => 0o222
  | 'a', 'x' => 0o111
  | _, _ => 0

/-- Python `perm &= ~mask` on a non-negative int: remove the bits of `mask`. -/
def bitClear (perm mask : Nat) : Nat := perm ^^^ (perm &&& mask)

/-- The inner loop `for key in perm_bits[w]: perm &= ~perm_bits[w][key]`:
clear the r, w and x bits of category `w`. -/
def clearCat (w : Char) (perm : Nat) : Nat :=
  bitClear (bitClear (bitClear perm (permBits w 'r')) (permBits w 'w')) (permBits w 'x')

/-- The body of the innermost loop of `symbolic_to_octal` for one `w` of the
who-string and one `p` of the perms-string, guarded by `if p in perm_bits[w]`. -/
def applyPerm (action w p : Char) (perm : Nat) : Nat :=
  if isPerm p then
    if action = '+' then perm ||| permBits w p
    else if action = '-' then bitClear perm (permBits w p)
    else if action = '=' then
      (if w = 'a' then perm else clearCat w perm) ||| permBits w p
    else perm
  else perm

/-- The two nested loops `for w in who: for p in perms: …` of one clause. -/
def applyClause (perm : Nat) (who : List Char) (action : Char) (perms : List Char) : Nat :=
  who.foldl (fun acc w => perms.foldl (fun acc2 p => applyPerm action w p acc2) acc) perm

/-- The clause loop of `symbolic_to_octal`: parse each clause, default an empty
who-string to `'a'`, apply it to the accumulator; a clause the regex rejects
raises `ValueError` (modelled as `Except.error`). -/
def runClauses : Nat → List (List Char) → Except String Nat
  | perm, [] => .ok perm
  | perm, op :: rest =>
    match parseClause op with
    | none => .error ("Invalid symbolic permission: " ++ String.mk op)
    | some (who, action, perms) =>
      let whoAll := if who = [] then ['a'] else who
      runClauses (applyClause perm whoAll action perms) rest

/-- `symbolic_to_octal(symbolic)`: split on commas and run the clauses over an
accumulator initialised to `perm = 0`. -/
def symbolic_to_octal (symbolic : String) : Except String Nat :=
  runClauses 0 (splitComma symbolic.data)

/-- `Except.error`-ness of a compiler result, as a boolean. -/
def isErr (r : Except String Nat) : Bool :=
  match r with
  | .error _ => true
  | .ok _ => false

/-- Follows the specification's wording for the claimed contract
`compile(expression, base)`: the running accumulator starts at the
caller-supplied `base` and the clauses are applied left to right with the
code's per-clause semantics. The source function `symbolic_to_octal` has no
such parameter; this definition exists only to compare the claimed contract
with the code. -/
def compile_spec_base (symbolic : String) (base : Nat) : Except String Nat :=
  runClauses base (splitComma symbolic.data)

/-! Bounds: every value the compiler ever holds stays below `2 ^ 9`. -/

theorem permBits_lt (w p : Char) : permBits w p < 512 := by
  unfold permBits
  split <;> decide

theorem or_lt_512 {a b : Nat} (ha : a < 512) (hb : b < 512) : a ||| b < 512 := by
  have e : (512 : Nat) = 2 ^ 9 := by norm_num
  rw [e] at ha hb ⊢
  exact Nat.or_lt_two_pow ha hb

theorem bitClear_lt {perm : Nat} (mask : Nat) (h : perm < 512) : bitClear perm mask < 512 := by
  have e : (512 : Nat) = 2 ^ 9 := by norm_num
  rw [e] at h ⊢
  exact Nat.xor_lt_two_pow h (lt_of_le_of_lt Nat.and_le_left h)

theorem clearCat_lt {perm : Nat} (w : Char) (h : perm < 512) : clearCat w perm < 512 :=
  bitClear_lt _ (bitClear_lt _ (bitClear_lt _ h))

theorem applyPerm_lt {perm : Nat} (action w p : Char) (h : perm < 512) :
    applyPerm action w p perm < 512 := by
  unfold applyPerm
  split_ifs <;>
    first
      | exact h
      | exact or_lt_512 h (permBits_lt w p)
      | exact bitClear_lt _ h
      | exact or_lt_512 (clearCat_lt w h) (permBits_lt w p)

theorem foldl_lt {β : Type} (f : Nat → β → Nat) (hf : ∀ a b, a < 512 → f a b < 512) :
    ∀ (l : List β) (a : Nat), a < 512 → l.foldl f a < 512
  | [], _, ha => ha
  | b :: l, a, ha => foldl_lt f hf l (f a b) (hf a b ha)

theorem applyClause_lt {perm : Nat} (who : List Char) (action : Char) (perms : List Char)
    (h : perm < 512) : applyClause perm who action perms < 512 := by
  unfold applyClause
  exact foldl_lt _
    (fun a w ha => foldl_lt _ (fun a2 p ha2 => applyPerm_lt action w p ha2) perms a ha)
    who perm h

theorem runClauses_lt :
    ∀ (ops : List (List Char)) (perm m : Nat), perm < 512 →
      runClauses perm ops = .ok m → m < 512 := by
  intro ops
  induction ops with
  | nil =>
    intro perm m hp h
    simp only [runClauses] at h
    cases h
    exact hp
  | cons op rest ih =>
    intro perm m hp h
    simp only [runClauses] at h
    split at h
    · cases h
    · exact ih _ m (applyClause_lt _ _ _ hp) h

/-- Error results of `runClauses` are exactly the clause lists holding a
clause the regex rejects; the accumulator value is irrelevant. -/
theorem runClauses_isErr_iff (ops : List (List Char)) :
    ∀ perm : Nat, isErr (runClauses perm ops) = true ↔ ∃ op ∈ ops, parseClause op = none := by
  induction ops with
  | nil =>
    intro perm
    simp [runClauses, isErr]
  | cons op rest ih =>
    intro perm
    simp only [runClauses]
    cases hp : parseClause op with
    | none =>
      simp only [hp]
      constructor
      · intro _
        exact ⟨op, List.mem_cons_self op rest, hp⟩
      · intro _
        rfl
    | some v =>
      obtain ⟨who, action, perms⟩ := v
      simp only [hp]
      rw [ih]
      constructor
      · rintro ⟨o, ho, hno⟩
        exact ⟨o, List.mem_cons_of_mem _ ho, hno⟩
      · rintro ⟨o, ho, hno⟩
        rcases List.mem_cons.mp ho with h1 | h2
        · subst h1
          simp [hp] at hno
        · exact ⟨o, h2, hno⟩

/-- C1 (code bug): the code clears the category inside the loop over the
requested permission letters — once per letter, not once per clause — so
`symbolic_to_octal "u=rw"` returns `0o200`: the owner-read bit set while
handling `'r'` is erased again by the clearing step of `'w'`, and the
owner-read bit is absent from the result. -/
theorem c1_code_eval_assign_owner :
    symbolic_to_octal "u=rw" = .ok 0o200 ∧ 0o200 &&& 0o400 = 0 :=
  ⟨rfl, by decide⟩

/-- C2 (code bug): under the `'a'` alias the code skips clearing entirely, so
`"a=r"` behaves like `"a+r"`: `symbolic_to_octal "u+w,a=r"` returns `0o644`,
keeping the previously granted owner-write bit, where the claim requires
exactly the three read bits `0o444`. -/
theorem c2_code_eval_assign_all :
    symbolic_to_octal "u+w,a=r" = .ok 0o644 ∧ (0o644 : Nat) ≠ 0o444 :=
  ⟨rfl, by decide⟩

/-- C3 counterexample: the clause regex is applied with `re.match`, which does
not anchor the end of the clause, so in `"u+rq"` the trailing `'q'` is
silently dropped and compilation succeeds with `0o400` instead of failing. -/
theorem c3_counterexample_trailing_garbage :
    symbolic_to_octal "u+rq" = .ok 0o400 ∧ isErr (symbolic_to_octal "u+rq") = false :=
  ⟨rfl, rfl⟩

/-- C3 amended: compilation fails exactly when some comma-separated clause,
after stripping, does not consist of a (possibly empty) run of `[ugoa]`
followed by one of `+`, `-`, `=` — the empty expression and `"z+r"` fail —
but text after the matched prefix, such as the `'q'` of `"u+rq"`, is
silently ignored rather than rejected. -/
theorem c3_amended_grammar_prefix_only :
    (∀ s : String,
      isErr (symbolic_to_octal s) = true ↔ ∃ op ∈ splitComma s.data, parseClause op = none)
  ∧ isErr (symbolic_to_octal "") = true
  ∧ isErr (symbolic_to_octal "z+r") = true
  ∧ symbolic_to_octal "u+rq" = .ok 0o400 :=
  ⟨fun s => runClauses_isErr_iff (splitComma s.data) 0, rfl, rfl, rfl⟩

/-- C4 counterexample: `symbolic_to_octal` accepts no base argument — its
accumulator always starts at `0` — so at base `0o100` the claimed contract
(modelled by `compile_spec_base`) yields `0o500` for `"u+r"` while the code
returns `0o400` for the same expression. -/
theorem c4_counterexample_no_base_argument :
    compile_spec_base "u+r" 0o100 = .ok 0o500
  ∧ symbolic_to_octal "u+r" = .ok 0o400
  ∧ (0o500 : Nat) ≠ 0o400 :=
  ⟨rfl, rfl, by decide⟩

/-- C4 amended: `symbolic_to_octal` takes only the expression string; the
clauses are applied left to right against an accumulator that always starts
at `0` (the code coincides with the claimed two-argument contract only at base
`0`), `"a-rwx"` compiles to `0`, and clause order matters in general. -/
theorem c4_amended_base_fixed_to_zero :
    (∀ s : String, symbolic_to_octal s = compile_spec_base s 0)
  ∧ symbolic_to_octal "a-rwx" = .ok 0
  ∧ symbolic_to_octal "u+rwx,u-w" = .ok 0o500
  ∧ symbolic_to_octal "u-w,u+rwx" = .ok 0o700
  ∧ (0o500 : Nat) ≠ 0o700 :=
  ⟨fun _ => rfl, rfl, rfl, rfl, by decide⟩

/-- C5: for every expression on which `symbolic_to_octal` succeeds, the result
has no bits outside the nine owner/group/other permission bits: it lies in
`[0, 0o777]`. -/
theorem c5_result_within_nine_bits (s : String) (m : Nat)
    (h : symbolic_to_octal s = .ok m) : m ≤ 0o777 :=
  Nat.lt_succ_iff.mp (runClauses_lt _ 0 m (by norm_num) h)

/-- Witness for C5 at the concrete input `"a+rwx"`, which compiles to `0o777`. -/
theorem c5_witness : (0o777 : Nat) ≤ 0o777 :=
  c5_result_within_nine_bits "a+rwx" 0o777 rfl

/-! The size parser `human_to_bytes`. -/

/-- Python `str.upper()` on one character, modelled for ASCII: the 26
lowercase letters map to their uppercase forms, everything else is kept. -/
def pyUpperChar (c : Char) : Char :=
  match c with
  | 'a' => 'A'
  | 'b' => 'B'
  | 'c' => 'C'
  | 'd' => 'D'
  | 'e' => 'E'
  | 'f' => 'F'
  | 'g' => 'G'
  | 'h' => 'H'
  | 'i' => 'I'
  | 'j' => 'J'
  | 'k' => 'K'
  | 'l' => 'L'
  | 'm' => 'M'
  | 'n' => 'N'
  | 'o' => 'O'
  | 'p' => 'P'
  | 'q' => 'Q'
  | 'r' => 'R'
  | 's' => 'S'
  | 't' => 'T'
  | 'u' => 'U'
  | 'v' => 'V'
  | 'w' => 'W'
  | 'x' => 'X'
  | 'y' => 'Y'
  | 'z' => 'Z'
  | other => other

/-- Python `int(num)` for a string of decimal digits. -/
def digitsToNat (ds : List Char) : Nat :=
  ds.foldl (fun n c => 10 * n + (c.toNat - 48)) 0

/-- The `units` dictionary looked up with `.get(unit, 1)`: unknown keys — the
empty unit and tokens such as `"BB"` — fall back to multiplier `1`. -/
def unitFactor (u : List Char) : Nat :=
  if u = ['B'] then 1
  else if u = ['K'] then 1024
  else if u = ['K', 'B'] then 1024
  else if u = ['M'] then 1024 * 1024
  else if u = ['M', 'B'] then 1024 * 1024
  else if u = ['G'] then 1024 * 1024 * 1024
  else if u = ['G', 'B'] then 1024 * 1024 * 1024
  else 1

/-- The second group of `re.match(r"(\d+)([KMGB]?B?)", …)`: an optional
character from `[KMGB]` followed by an optional `'B'`; the classes need no
backtracking because nothing follows the group, so the greedy match takes at
most those two characters and leaves the rest unconsumed. -/
def matchUnit : List Char → List Char
  | [] => []
  | c :: rest =>
    if c = 'K' || c = 'M' || c = 'G' || c = 'B' then
      match rest with
      | 'B' :: _ => [c, 'B']
      | _ => [c]
    else []

/-- `human_to_bytes(s)`: uppercase, match a leading run of decimal digits
(`\d+` fails exactly when there is none), then the optional unit group;
characters after the matched groups are ignored by `re.match`. -/
def human_to_bytes (s : String) : Except String Nat :=
  let up := s.data.map pyUpperChar
  let num := up.takeWhile Char.isDigit
  if num = [] then .error ("Invalid size format: " ++ s)
  else .ok (digitsToNat num * unitFactor (matchUnit (up.dropWhile Char.isDigit)))

/-- `Except.error`-ness of a size-parser result, as a boolean. -/
def isErrSize (r : Except String Nat) : Bool :=
  match r with
  | .error _ => true
  | .ok _ => false

/-- Whether the text begins with a decimal digit. -/
def startsWithDigit (s : String) : Bool :=
  match s.data with
  | [] => false
  | c :: _ => c.isDigit

theorem pyUpperChar_isDigit (c : Char) : (pyUpperChar c).isDigit = c.isDigit := by
  unfold pyUpperChar
  split <;> rfl

/-- `human_to_bytes` fails exactly when the text does not begin with a
decimal digit. -/
theorem human_to_bytes_isErr_iff (s : String) :
    isErrSize (human_to_bytes s) = true ↔ startsWithDigit s = false := by
  unfold human_to_bytes startsWithDigit
  cases hd : s.data with
  | nil => simp [isErrSize]
  | cons c tl =>
    simp only [List.map_cons, List.takeWhile_cons, pyUpperChar_isDigit]
    cases hc : c.isDigit <;> simp [isErrSize]

/-- C6 counterexample: after the number, only the longest prefix matching
`[KMGB]?B?` is consumed as the unit, so the unrecognized suffix `"KX"` of
`"5KX"` is not treated as multiplier `1`: the `'K'` is consumed, the `'X'` is
ignored, and the result is `5 * 1024 = 5120` rather than `5`. -/
theorem c6_counterexample_suffix_kx :
    human_to_bytes "5KX" = .ok 5120 ∧ (5120 : Nat) ≠ 5 :=
  ⟨rfl, by decide⟩

/-- C6 amended: the unit is the longest prefix of the text after the digits
matching `[KMGB]?B?` (case-insensitive), looked up with default multiplier
`1` (so the matched-but-unknown token `"BB"` and the empty token give `1`),
and any remaining characters are ignored — hence `"5KX"` parses as `5120` and
`"10TB"` as `10`; parsing fails exactly when the text does not begin with a
decimal digit. -/
theorem c6_amended_longest_unit_prefix :
    (∀ s : String, isErrSize (human_to_bytes s) = true ↔ startsWithDigit s = false)
  ∧ human_to_bytes "5MB" = .ok 5242880
  ∧ human_to_bytes "10" = .ok 10
  ∧ human_to_bytes "5kb" = .ok 5120
  ∧ human_to_bytes "3G" = .ok 3221225472
  ∧ human_to_bytes "2b" = .ok 2
  ∧ human_to_bytes "5KX" = .ok 5120
  ∧ human_to_bytes "7bb" = .ok 7
  ∧ human_to_bytes "10TB" = .ok 10
  ∧ isErrSize (human_to_bytes "") = true
  ∧ isErrSize (human_to_bytes "MB") = true :=
  ⟨human_to_bytes_isErr_iff, rfl, rfl, rfl, rfl, rfl, rfl, rfl, rfl, rfl, rfl⟩

/-! The directory filter engine `dir_ls` and the standalone `path_filter`.

Filesystem facts — whether the root exists and is a directory, the entries
the OS enumeration yields and each entry's kind — are inputs; `Path.match`
and `re.search` are oracle parameters `gM` and `rS` taking the path string
and the pattern. -/

/-- One enumerated filesystem object: its full path string `str(p)`, its leaf
name `p.name`, and the three kind tests `p.is_file()`, `p.is_dir()`,
`p.is_symlink()`. -/
structure PyEntry where
  path : String
  name : String
  is_file : Bool
  is_dir : Bool
  is_symlink : Bool
deriving DecidableEq

/-- The errors `dir_ls` can raise: `FileNotFoundError`, `NotADirectoryError`,
and `RuntimeError` (any exception raised inside the enumeration loop —
including the `ValueError` of the type-filter dispatch — is caught by the
`except` block and re-raised as `RuntimeError`). -/
inductive DirErr
  | fileNotFound
  | notADirectory
  | runtimeErr
deriving DecidableEq

/-- `condition = not invert` when the matcher matched, `condition = invert`
otherwise. -/
def matchCond (matched invert : Bool) : Bool :=
  if matched then !invert else invert

/-- Python truthiness of a string: false exactly for the empty string. -/
def strTruthy (s : String) : Bool := !s.data.isEmpty

/-- `p.name.startswith('.')`: the first character is a dot. -/
def startsWithDot (s : String) : Bool :=
  match s.data with
  | '.' :: _ => true
  | _ => false

/-- One optional matcher guarded by Python truthiness: `if glob:` skips the
filter when the pattern is `None` or the empty string; otherwise the entry
passes when `matchCond` holds. -/
def optCond (m : String → String → Bool) (pat : Option String) (invert : Bool)
    (path : String) : Bool :=
  match pat with
  | some q => if strTruthy q then matchCond (m path q) invert else true
  | none => true

/-- The type-filter dispatch of the loop body: a chained conditional whose
final `else` raises `ValueError` — reached both for an unknown
`type_filter` and for an entry whose kind matches the requested one. -/
def typeCheck (tf : String) (e : PyEntry) : Except DirErr Bool :=
  if tf = "any" then .ok true
  else if tf = "file" && !e.is_file then .ok false
  else if tf = "directory" && !e.is_dir then .ok false
  else if tf = "symlink" && !e.is_symlink then .ok false
  else .error .runtimeErr

/-- The loop body of `dir_ls` for one entry: hidden-name check, type filter,
glob filter, regexp filter; `.ok true` keeps the entry, `.ok false` is a
`continue`, `.error` aborts the whole listing. -/
def keepEntry (gM rS : String → String → Bool) (all : Bool) (tf : String)
    (glob regexp : Option String) (invert : Bool) (e : PyEntry) : Except DirErr Bool :=
  if !all && startsWithDot e.name then .ok false
  else
    match typeCheck tf e with
    | .error er => .error er
    | .ok false => .ok false
    | .ok true =>
      if !(optCond gM glob invert e.path) then .ok false
      else .ok (optCond rS regexp invert e.path)

/-- The enumeration loop of `dir_ls`: appends kept entries in enumeration
order; an error anywhere discards all partial results. -/
def dir_ls_loop (gM rS : String → String → Bool) (all : Bool) (tf : String)
    (glob regexp : Option String) (invert : Bool) :
    List PyEntry → Except DirErr (List PyEntry)
  | [] => .ok []
  | e :: rest =>
    match keepEntry gM rS all tf glob regexp invert e with
    | .error er => .error er
    | .ok keep =>
      match dir_ls_loop gM rS all tf glob regexp invert rest with
      | .error er => .error er
      | .ok l => .ok (if keep then e :: l else l)

/-- `dir_ls(path, all, recurse, type_filter, glob, regexp, invert, fail)`:
missing-root and not-a-directory checks, then the filtering loop over the
OS enumeration — `path.rglob('*')` (`subtree`) when `recurse` else
`path.iterdir()` (`children`) — with no reordering of the results. -/
def dir_ls (gM rS : String → String → Bool) (rootExists rootIsDir : Bool)
    (children subtree : List PyEntry) (all recurse : Bool) (tf : String)
    (glob regexp : Option String) (invert fail : Bool) :
    Except DirErr (List PyEntry) :=
  if !rootExists then
    if fail then .error .fileNotFound else .ok []
  else if !rootIsDir then .error .notADirectory
  else dir_ls_loop gM rS all tf glob regexp invert (if recurse then subtree else children)

/-- `path_filter(paths, glob, regexp, invert)`: starts from `match = True`,
overwrites it with the glob outcome when `glob` is truthy, then overwrites it
again with the regexp outcome when `regexp` is truthy, and keeps the path when
the final value is true. -/
def path_filter (gM rS : String → String → Bool) (paths : List String)
    (glob regexp : Option String) (invert : Bool) : List String :=
  match paths with
  | [] => []
  | p :: rest =>
    let m1 : Bool := true
    let m2 := match glob with
      | some pat => if strTruthy pat then matchCond (gM p pat) invert else m1
      | none => m1
    let m3 := match regexp with
      | some pat => if strTruthy pat then matchCond (rS p pat) invert else m2
      | none => m2
    if m3 then p :: path_filter gM rS rest glob regexp invert
    else path_filter gM rS rest glob regexp invert

/-! Structure of the loop: with `all = true` and `type_filter = "any"` the
listing is a pure filter of the enumeration, and a successful listing is
always a sublist of the enumeration. -/

theorem keepEntry_true_any (gM rS : String → String → Bool) (glob regexp : Option String)
    (invert : Bool) (e : PyEntry) :
    keepEntry gM rS true "any" glob regexp invert e
      = .ok (optCond gM glob invert e.path && optCond rS regexp invert e.path) := by
  simp only [keepEntry, typeCheck]
  cases hg : optCond gM glob invert e.path <;> simp [hg]

theorem dir_ls_loop_filter (gM rS : String → String → Bool) (glob regexp : Option String)
    (invert : Bool) :
    ∀ entries : List PyEntry,
      dir_ls_loop gM rS true "any" glob regexp invert entries
        = .ok (entries.filter
            (fun e => optCond gM glob invert e.path && optCond rS regexp invert e.path)) := by
  intro entries
  induction entries with
  | nil => rfl
  | cons e rest ih =>
    simp only [dir_ls_loop, keepEntry_true_any, ih, List.filter_cons]

theorem dir_ls_loop_sublist (gM rS : String → String → Bool) (all : Bool) (tf : String)
    (glob regexp : Option String) (invert : Bool) :
    ∀ (entries l : List PyEntry),
      dir_ls_loop gM rS all tf glob regexp invert entries = .ok l → l.Sublist entries := by
  intro entries
  induction entries with
  | nil =>
    intro l h
    simp only [dir_ls_loop] at h
    cases h
    exact List.Sublist.refl []
  | cons e rest ih =>
    intro l h
    simp only [dir_ls_loop] at h
    cases hk : keepEntry gM rS all tf glob regexp invert e with
    | error er =>
      simp only [hk] at h
      cases h
    | ok keep =>
      simp only [hk] at h
      cases hr : dir_ls_loop gM rS all tf glob regexp invert rest with
      | error er =>
        simp only [hr] at h
        cases h
      | ok l2 =>
        simp only [hr] at h
        cases h
        cases keep with
        | true => exact List.Sublist.cons₂ e (ih l2 hr)
        | false => exact List.Sublist.cons e (ih l2 hr)

/-- C7 (code bug): the `type_filter` value is never validated up front — the
dispatch sits inside the enumeration loop — so listing a directory with an
empty enumeration under `type_filter = "bogus"` succeeds with `[]`, and with
a non-empty enumeration the invalid value surfaces only per entry, wrapped as
`RuntimeError` by the loop's exception handler. -/
theorem c7_code_eval_no_upfront_validation :
    dir_ls (fun _ _ => false) (fun _ _ => false) true true [] [] false false "bogus"
        none none false true = .ok []
  ∧ dir_ls (fun _ _ => false) (fun _ _ => false) true true
        [⟨"a.txt", "a.txt", true, false, false⟩] [] false false "bogus" none none false true
      = .error .runtimeErr :=
  ⟨rfl, rfl⟩

/-- C8 (code bug): the chained type-filter conditional raises exactly when an
entry's kind matches the requested `type_filter` — a file entry under
`type_filter = "file"` falls through to the `else: raise ValueError` branch
(surfacing as `RuntimeError`) — while an entry of a different kind is
dropped without error. -/
theorem c8_code_eval_matching_kind_raises :
    dir_ls (fun _ _ => false) (fun _ _ => false) true true
        [⟨"a.txt", "a.txt", true, false, false⟩] [] false false "file" none none false true
      = .error .runtimeErr
  ∧ dir_ls (fun _ _ => false) (fun _ _ => false) true true
        [⟨"sub", "sub", false, true, false⟩] [] false false "file" none none false true
      = .ok [] :=
  ⟨rfl, rfl⟩

/-- C9 counterexample: in `path_filter`, the regexp outcome overwrites the
glob outcome instead of being conjoined with it — with a glob matcher that
rejects `"a.txt"` and a regexp matcher that accepts it, the path is included
even though it fails the glob matcher. -/
theorem c9_counterexample_path_filter_regex_overwrites :
    path_filter (fun _ _ => false) (fun _ _ => true) ["a.txt"] (some "g") (some "r") false
      = ["a.txt"]
  ∧ matchCond ((fun (_ _ : String) => false) "a.txt" "g") false = false :=
  ⟨rfl, rfl⟩

/-- C9 amended: in `dir_ls` an entry passes both active matchers, each
individually inverted, to be included; in `path_filter`, however, when both a
truthy glob and a truthy regexp are supplied the regexp outcome alone decides
inclusion, the glob outcome being overwritten. -/
theorem c9_amended_conjunction_in_dir_ls_only :
    (∀ (gM rS : String → String → Bool) (entries : List PyEntry) (gp rp : String)
       (invert fail : Bool),
       dir_ls gM rS true true entries [] true false "any" (some gp) (some rp) invert fail
         = .ok (entries.filter (fun e =>
             optCond gM (some gp) invert e.path && optCond rS (some rp) invert e.path)))
  ∧ (∀ (gM rS : String → String → Bool) (paths : List String) (gp rp : String)
       (invert : Bool), strTruthy gp = true → strTruthy rp = true →
       path_filter gM rS paths (some gp) (some rp) invert
         = paths.filter (fun p => matchCond (rS p rp) invert)) := by
  constructor
  · intro gM rS entries gp rp invert fail
    show dir_ls_loop gM rS true "any" (some gp) (some rp) invert entries = _
    exact dir_ls_loop_filter gM rS (some gp) (some rp) invert entries
  · intro gM rS paths gp rp invert h1 h2
    induction paths with
    | nil => rfl
    | cons p rest ih =>
      simp only [path_filter, h1, h2, if_true, List.filter_cons, ih]

/-- C10 counterexample: `dir_ls` returns entries in the order the OS
enumeration yields them — for the enumeration `[b, a]` it returns `[b, a]`,
which is not sorted lexicographically by path (`"a" < "b"`), and permuting
the enumeration permutes the result, so the order is not independent of the
OS enumeration. -/
theorem c10_counterexample_os_order_kept :
    dir_ls (fun _ _ => false) (fun _ _ => false) true true
        [⟨"b", "b", true, false, false⟩, ⟨"a", "a", true, false, false⟩] []
        true false "any" none none false true
      = .ok [⟨"b", "b", true, false, false⟩, ⟨"a", "a", true, false, false⟩]
  ∧ dir_ls (fun _ _ => false) (fun _ _ => false) true true
        [⟨"a", "a", true, false, false⟩, ⟨"b", "b", true, false, false⟩] []
        true false "any" none none false true
      = .ok [⟨"a", "a", true, false, false⟩, ⟨"b", "b", true, false, false⟩]
  ∧ "a".data < "b".data
  ∧ ([(⟨"b", "b", true, false, false⟩ : PyEntry), ⟨"a", "a", true, false, false⟩]
      ≠ [(⟨"a", "a", true, false, false⟩ : PyEntry), ⟨"b", "b", true, false, false⟩]) :=
  ⟨rfl, rfl, by decide, by decide⟩

/-- C10 amended: a successful listing is always a sublist of the OS
enumeration (the filters drop entries but never reorder them), and with no
filter active the listing is exactly the enumeration in enumeration order;
no lexicographic sorting is applied. -/
theorem c10_amended_result_follows_enumeration :
    (∀ (gM rS : String → String → Bool) (rootExists rootIsDir : Bool)
       (children subtree : List PyEntry) (all recurse : Bool) (tf : String)
       (glob regexp : Option String) (invert fail : Bool) (l : List PyEntry),
       dir_ls gM rS rootExists rootIsDir children subtree all recurse tf glob regexp
           invert fail = .ok l →
       l.Sublist (if recurse then subtree else children))
  ∧ (∀ (gM rS : String → String → Bool) (entries : List PyEntry) (fail : Bool),
       dir_ls gM rS true true entries [] true false "any" none none false fail
         = .ok entries) := by
  constructor
  · intro gM rS rootExists rootIsDir children subtree all recurse tf glob regexp invert
      fail l h
    unfold dir_ls at h
    split at h
    · split at h
      · cases h
      · cases h
        exact List.nil_sublist _
    · split at h
      · cases h
      · exact dir_ls_loop_sublist gM rS all tf glob regexp invert _ l h
  · intro gM rS entries fail
    show dir_ls_loop gM rS true "any" none none false entries = .ok entries
    rw [dir_ls_loop_filter]
    simp [optCond]

end FilePy
